import Mathlib

/-!
Verification development for the data cleaning, alignment and merge pipeline
of the covid-economic-analysis repository (`src/data_processing.py`,
class `DataProcessor`).  The pandas operations used by the source are
shallowly embedded: a dataframe is a list of records, numeric cells are
rationals (`ℚ`), a possibly-missing cell is an `Option ℚ`, and the IEEE
special values that pandas arithmetic can produce (`NaN`, `±inf`) are made
explicit by the carrier `PVal`.  Calendar dates are abstracted to a
year-month index plus a day-of-month, which is all the pipeline inspects
(ordering and `to_period('M')` bucketing).
-/

/-- A calendar date, abstracted to the components the pipeline uses:
`ym` is the year-month index (what `Series.dt.to_period('M')` extracts)
and `day` the day inside that month.  Chronological order is the
lexicographic order on `(ym, day)`. -/
structure Date where
  ym : ℤ
  day : ℤ
deriving DecidableEq

/-- Chronological comparison of two dates. -/
def dateLe (a b : Date) : Bool :=
  decide (a.ym < b.ym) || (decide (a.ym = b.ym) && decide (a.day ≤ b.day))

/-- A raw date cell as delivered to `pd.to_datetime`: either parseable to a
calendar date or unparseable text. -/
inductive RawDate where
  | valid (d : Date)
  | invalid (txt : String)
deriving DecidableEq

/-- The exception raised when a date (or required field) cannot be
interpreted; `pd.to_datetime` raises it and the cleaners re-raise it
unchanged (`except ... raise` in the source). -/
structure MalformedInputError where
  msg : String
deriving DecidableEq

/-- Result of parsing one raw date cell, as `pd.to_datetime` does. -/
def parseDate : RawDate → Except MalformedInputError Date
  | .valid d => .ok d
  | .invalid s => .error ⟨s⟩

/-- A pandas float cell: a finite rational, `+inf`, `-inf` or `NaN`. -/
inductive PVal where
  | fin (q : ℚ)
  | posInf
  | negInf
  | nan
deriving DecidableEq

/-- pandas column division `x / y` on finite cells: `x/0` is `±inf` for
nonzero `x` and `NaN` for `0/0`; otherwise exact division. -/
def pdiv (x y : ℚ) : PVal :=
  if y = 0 then
    if x = 0 then .nan else if 0 < x then .posInf else .negInf
  else .fin (x / y)

/-- Multiplication of a pandas float cell by the scalar 100. -/
def pmul100 : PVal → PVal
  | .fin q => .fin (q * 100)
  | .posInf => .posInf
  | .negInf => .negInf
  | .nan => .nan

/-- Embeds `Series.fillna(0)` on one cell: only `NaN` is replaced, infinities are
kept. -/
def pfillna0 : PVal → PVal
  | .nan => .fin 0
  | v => v

/-- Addition of pandas float cells (used by the monthly `mean` aggregate). -/
def padd : PVal → PVal → PVal
  | .nan, _ => .nan
  | _, .nan => .nan
  | .posInf, .negInf => .nan
  | .negInf, .posInf => .nan
  | .posInf, _ => .posInf
  | _, .posInf => .posInf
  | .negInf, _ => .negInf
  | _, .negInf => .negInf
  | .fin a, .fin b => .fin (a + b)

/-- Is this cell `NaN`?  (`Series.mean` skips such cells.) -/
def pIsNan : PVal → Bool
  | .nan => true
  | _ => false

/-- Division of a pandas float cell by a (positive) record count. -/
def pdivNat (v : PVal) (n : ℕ) : PVal :=
  match v with
  | .fin q => .fin (q / n)
  | .posInf => .posInf
  | .negInf => .negInf
  | .nan => .nan

/-- Embeds `Series.mean()` over the cells of a column: `NaN` cells are skipped
(pandas `skipna=True`); an all-`NaN` column has mean `NaN`. -/
def pvalMean (l : List PVal) : PVal :=
  let vs := l.filter (fun v => !pIsNan v)
  match vs with
  | [] => .nan
  | _ => pdivNat (vs.foldl padd (.fin 0)) vs.length

/-- Insertion step of the embedded `sort_values` (comparison by a `Bool`
relation). -/
def insertLe {α : Type} (le : α → α → Bool) (x : α) : List α → List α
  | [] => [x]
  | y :: ys => if le x y then x :: y :: ys else y :: insertLe le x ys

/-- The embedded `sort_values`: produces the rows reordered so the sort key
is ascending. -/
def sortLe {α : Type} (le : α → α → Bool) : List α → List α
  | [] => []
  | x :: xs => insertLe le x (sortLe le xs)

/-! ## COVID series cleaner (`DataProcessor.clean_covid_data`) -/

/-- A raw COVID record as delivered by the ingestion collaborator:
`{date, country, cases, deaths, recovered}`, numeric fields possibly
missing (`none` = `NaN`). -/
structure RawCovidRow where
  date : RawDate
  country : String
  cases : Option ℚ
  deaths : Option ℚ
  recovered : Option ℚ
deriving DecidableEq

/-- A COVID record after `pd.to_datetime` succeeded on its date. -/
structure PCovidRow where
  date : Date
  country : String
  cases : Option ℚ
  deaths : Option ℚ
  recovered : Option ℚ
deriving DecidableEq

/-- A COVID record after `df.fillna(0)`: all numeric cells present. -/
structure FCovidRow where
  date : Date
  country : String
  cases : ℚ
  deaths : ℚ
  recovered : ℚ
deriving DecidableEq

/-- A cleaned COVID record: the filled raw fields plus the derived columns
added by `clean_covid_data`.  The `month` field models the presence of the
`month` column that `merge_datasets` later assigns in place (`none` =
column absent). -/
structure CleanCovidRow where
  date : Date
  country : String
  cases : ℚ
  deaths : ℚ
  recovered : ℚ
  new_cases : ℚ
  new_deaths : ℚ
  cases_7day_avg : ℚ
  deaths_7day_avg : ℚ
  case_fatality_rate : PVal
  month : Option ℤ
deriving DecidableEq

/-- A default cleaned row (used only as the `getD` fallback in
statements). -/
def dCRow : CleanCovidRow :=
  { date := ⟨0, 0⟩, country := "", cases := 0, deaths := 0, recovered := 0,
    new_cases := 0, new_deaths := 0, cases_7day_avg := 0, deaths_7day_avg := 0,
    case_fatality_rate := .fin 0, month := none }

/-- Embeds `df['date'] = pd.to_datetime(df['date'])` on the COVID table: parses
every date, raising on the first unparseable one. -/
def parseCovidRows : List RawCovidRow → Except MalformedInputError (List PCovidRow)
  | [] => .ok []
  | r :: rest =>
    match parseDate r.date with
    | .error e => .error e
    | .ok d =>
      match parseCovidRows rest with
      | .error e => .error e
      | .ok ps => .ok ({ date := d, country := r.country, cases := r.cases,
                         deaths := r.deaths, recovered := r.recovered } :: ps)

/-- Embeds `df.fillna(0)` on one parsed COVID record. -/
def fillCovidRow (r : PCovidRow) : FCovidRow :=
  { date := r.date, country := r.country, cases := r.cases.getD 0,
    deaths := r.deaths.getD 0, recovered := r.recovered.getD 0 }

/-- The trailing window of the last at most `n` elements of a column
(`Series.rolling(window=n, min_periods=1)` at the column's end). -/
def lastN (n : ℕ) (l : List ℚ) : List ℚ := l.drop (l.length - n)

/-- Clean one COVID record given `g`, the already-cleaned earlier records
of the same country (in order): the per-country `diff()` uses the last of
`g`, and the two `rolling(7, min_periods=1).mean()` columns average the
trailing window of the per-country delta column. -/
def mkCleanG (g : List CleanCovidRow) (r : FCovidRow) : CleanCovidRow :=
  let nc : ℚ := match g.getLast? with
    | none => 0
    | some p => r.cases - p.cases
  let nd : ℚ := match g.getLast? with
    | none => 0
    | some p => r.deaths - p.deaths
  let wc := lastN 7 (g.map (fun x => x.new_cases) ++ [nc])
  let wd := lastN 7 (g.map (fun x => x.new_deaths) ++ [nd])
  { date := r.date, country := r.country, cases := r.cases, deaths := r.deaths,
    recovered := r.recovered, new_cases := nc, new_deaths := nd,
    cases_7day_avg := wc.sum / wc.length,
    deaths_7day_avg := wd.sum / wd.length,
    case_fatality_rate := pfillna0 (pmul100 (pdiv r.deaths r.cases)),
    month := none }

/-- Left-to-right pass over the sorted, filled table computing the derived
columns; `pre` is the already-cleaned prefix, which
`groupby('country')` restricts to the current record's country. -/
def cleanRows (pre : List CleanCovidRow) : List FCovidRow → List CleanCovidRow
  | [] => []
  | r :: rest =>
    mkCleanG (pre.filter (fun x => decide (x.country = r.country))) r ::
      cleanRows (pre ++ [mkCleanG (pre.filter (fun x => decide (x.country = r.country))) r]) rest

/-- The same pass restricted to a single country group: `g` is the cleaned
prefix of the group, the list argument the remaining records of the
group. -/
def cleanGroup (g : List CleanCovidRow) : List FCovidRow → List CleanCovidRow
  | [] => []
  | r :: rest => mkCleanG g r :: cleanGroup (g ++ [mkCleanG g r]) rest

/-- Embeds `DataProcessor.clean_covid_data`: parse dates (raising
`MalformedInputError` on unparseable input), sort by date, fill missing
values with 0, then derive `new_cases`/`new_deaths`, the two 7-day rolling
means and `case_fatality_rate`. -/
def clean_covid_data (raw : List RawCovidRow) :
    Except MalformedInputError (List CleanCovidRow) :=
  match parseCovidRows raw with
  | .error e => .error e
  | .ok ps =>
    .ok (cleanRows [] ((sortLe (fun a b => dateLe a.date b.date) ps).map fillCovidRow))

/-- The country group of a cleaned table: its rows for one country, in
table order (how `groupby('country')` slices the frame). -/
def covidGroup (out : List CleanCovidRow) (c : String) : List CleanCovidRow :=
  out.filter (fun r => decide (r.country = c))

/-! ## Economic series cleaner (`DataProcessor.clean_economic_data`) -/

/-- A raw economic record: `{date, gdp_growth, unemployment_rate,
inflation_rate}`, indicators possibly missing. -/
structure RawEconRow where
  date : RawDate
  gdp_growth : Option ℚ
  unemployment_rate : Option ℚ
  inflation_rate : Option ℚ
deriving DecidableEq

/-- An economic record after its date parsed. -/
structure PEconRow where
  date : Date
  gdp_growth : Option ℚ
  unemployment_rate : Option ℚ
  inflation_rate : Option ℚ
deriving DecidableEq

/-- A cleaned economic record: forward-filled indicators plus the three
percentage-change columns.  Change cells are pandas floats (`NaN` at the
series start, `±inf`/`NaN` on a zero or missing previous value).  The
`month` field again models the `month` column later assigned in place by
`merge_datasets` (`none` = absent). -/
structure CleanEconRow where
  date : Date
  gdp_growth : Option ℚ
  unemployment_rate : Option ℚ
  inflation_rate : Option ℚ
  gdp_growth_change : PVal
  unemployment_change : PVal
  inflation_change : PVal
  month : Option ℤ
deriving DecidableEq

/-- A default cleaned economic row (the `getD` fallback in statements). -/
def dERow : CleanEconRow :=
  { date := ⟨0, 0⟩, gdp_growth := none, unemployment_rate := none,
    inflation_rate := none, gdp_growth_change := .nan,
    unemployment_change := .nan, inflation_change := .nan, month := none }

/-- Embeds `pd.to_datetime` over the economic table's date column. -/
def parseEconRows : List RawEconRow → Except MalformedInputError (List PEconRow)
  | [] => .ok []
  | r :: rest =>
    match parseDate r.date with
    | .error e => .error e
    | .ok d =>
      match parseEconRows rest with
      | .error e => .error e
      | .ok ps => .ok ({ date := d, gdp_growth := r.gdp_growth,
                         unemployment_rate := r.unemployment_rate,
                         inflation_rate := r.inflation_rate } :: ps)

/-- Embeds `df.fillna(method='ffill')`: each column independently carries forward
the most recent prior non-missing value; leading missing cells stay
missing.  `lg`, `lu`, `li` are the carried values for the three columns. -/
def ffillRows (lg lu li : Option ℚ) : List PEconRow → List PEconRow
  | [] => []
  | r :: rest =>
    let g := match r.gdp_growth with | some q => some q | none => lg
    let u := match r.unemployment_rate with | some q => some q | none => lu
    let f := match r.inflation_rate with | some q => some q | none => li
    { date := r.date, gdp_growth := g, unemployment_rate := u,
      inflation_rate := f } :: ffillRows g u f rest

/-- Embeds `Series.pct_change() * 100` of one cell against its predecessor:
missing on either side gives `NaN`; a zero previous value gives `±inf`
(or `NaN` for `0/0`); otherwise `(curr - prev)/prev * 100`. -/
def pctChange100 (prev curr : Option ℚ) : PVal :=
  match prev, curr with
  | some p, some c =>
    if p = 0 then (if 0 < c then .posInf else if c < 0 then .negInf else .nan)
    else .fin ((c - p) / p * 100)
  | _, _ => .nan

/-- One cleaned economic record: the record `r` with its three
percentage-change cells computed against the preceding record `prev`
(`none` at the series start). -/
def econEntry (prev : Option PEconRow) (r : PEconRow) : CleanEconRow :=
  { date := r.date, gdp_growth := r.gdp_growth,
    unemployment_rate := r.unemployment_rate,
    inflation_rate := r.inflation_rate,
    gdp_growth_change :=
      pctChange100 (prev.bind (fun p => p.gdp_growth)) r.gdp_growth,
    unemployment_change :=
      pctChange100 (prev.bind (fun p => p.unemployment_rate)) r.unemployment_rate,
    inflation_change :=
      pctChange100 (prev.bind (fun p => p.inflation_rate)) r.inflation_rate,
    month := none }

/-- Left-to-right pass appending the three percentage-change columns;
`prev` is the preceding (forward-filled) record, `none` at the start. -/
def econChanges (prev : Option PEconRow) : List PEconRow → List CleanEconRow
  | [] => []
  | r :: rest => econEntry prev r :: econChanges (some r) rest

/-- Embeds `DataProcessor.clean_economic_data`: parse dates (raising on
unparseable input), sort by date, forward-fill missing values, then derive
the three percentage-change columns. -/
def clean_economic_data (raw : List RawEconRow) :
    Except MalformedInputError (List CleanEconRow) :=
  match parseEconRows raw with
  | .error e => .error e
  | .ok ps =>
    .ok (econChanges none
      (ffillRows none none none (sortLe (fun a b => dateLe a.date b.date) ps)))

/-! ## Monthly aligner / merger (`DataProcessor.merge_datasets`) -/

/-- One row of the intermediate `monthly_covid` frame:
`groupby(['country','month']).agg(...)` keeps the two keys and the seven
aggregated columns. -/
structure MonthlyRow where
  country : String
  month : ℤ
  cases : ℚ
  deaths : ℚ
  new_cases : ℚ
  new_deaths : ℚ
  cases_7day_avg : ℚ
  deaths_7day_avg : ℚ
  case_fatality_rate : PVal
deriving DecidableEq

/-- One row of the inner-join result (before the `month` column is
dropped): the aggregated COVID columns together with the economic
record's columns. -/
structure JoinedRow where
  country : String
  month : ℤ
  cases : ℚ
  deaths : ℚ
  new_cases : ℚ
  new_deaths : ℚ
  cases_7day_avg : ℚ
  deaths_7day_avg : ℚ
  case_fatality_rate : PVal
  date : Date
  gdp_growth : Option ℚ
  unemployment_rate : Option ℚ
  inflation_rate : Option ℚ
  gdp_growth_change : PVal
  unemployment_change : PVal
  inflation_change : PVal
deriving DecidableEq

/-- One row of the final merged output (`month` dropped). -/
structure MergedRow where
  country : String
  cases : ℚ
  deaths : ℚ
  new_cases : ℚ
  new_deaths : ℚ
  cases_7day_avg : ℚ
  deaths_7day_avg : ℚ
  case_fatality_rate : PVal
  date : Date
  gdp_growth : Option ℚ
  unemployment_rate : Option ℚ
  inflation_rate : Option ℚ
  gdp_growth_change : PVal
  unemployment_change : PVal
  inflation_change : PVal
deriving DecidableEq

/-- Embeds `covid_df['month'] = covid_df['date'].dt.to_period('M')`, applied in
place to the caller's table. -/
def setCovidMonth (r : CleanCovidRow) : CleanCovidRow :=
  { r with month := some r.date.ym }

/-- Embeds `economic_df['month'] = economic_df['date'].dt.to_period('M')`,
applied in place to the caller's table. -/
def setEconMonth (r : CleanEconRow) : CleanEconRow :=
  { r with month := some r.date.ym }

/-- The maximum of a (nonempty) numeric column; 0 for an empty column,
which never occurs for a group. -/
def qMax : List ℚ → ℚ
  | [] => 0
  | x :: xs => xs.foldl max x

/-- The mean of a (nonempty) numeric column. -/
def qMean (l : List ℚ) : ℚ := l.sum / l.length

/-- Ordering of `groupby(['country','month'])` keys (pandas sorts group
keys ascending, country first). -/
def keyLe (a b : String × ℤ) : Bool :=
  decide (a.1 < b.1) || (decide (a.1 = b.1) && decide (a.2 ≤ b.2))

/-- The group keys of the month-stamped COVID table, deduplicated and
sorted as pandas `groupby` emits them. -/
def covidKeys (c : List CleanCovidRow) : List (String × ℤ) :=
  sortLe keyLe (c.map (fun r => (r.country, r.date.ym))).dedup

/-- The aggregate row for one `(country, month)` group, per the `agg`
dictionary of the source: `max` for the cumulative columns, `sum` for the
delta columns, `mean` for the rolling averages and the fatality rate. -/
def aggKey (c : List CleanCovidRow) (k : String × ℤ) : MonthlyRow :=
  let g := c.filter (fun r => decide (r.country = k.1) && decide (r.date.ym = k.2))
  { country := k.1, month := k.2,
    cases := qMax (g.map (fun r => r.cases)),
    deaths := qMax (g.map (fun r => r.deaths)),
    new_cases := (g.map (fun r => r.new_cases)).sum,
    new_deaths := (g.map (fun r => r.new_deaths)).sum,
    cases_7day_avg := qMean (g.map (fun r => r.cases_7day_avg)),
    deaths_7day_avg := qMean (g.map (fun r => r.deaths_7day_avg)),
    case_fatality_rate := pvalMean (g.map (fun r => r.case_fatality_rate)) }

/-- The intermediate `monthly_covid` frame. -/
def monthlyCovid (c : List CleanCovidRow) : List MonthlyRow :=
  (covidKeys c).map (aggKey c)

/-- Combining one aggregate row with one matching economic row
(`pd.merge` keeps the key once plus all other columns of both sides). -/
def joinRow (a : MonthlyRow) (e : CleanEconRow) : JoinedRow :=
  { country := a.country, month := a.month, cases := a.cases,
    deaths := a.deaths, new_cases := a.new_cases, new_deaths := a.new_deaths,
    cases_7day_avg := a.cases_7day_avg, deaths_7day_avg := a.deaths_7day_avg,
    case_fatality_rate := a.case_fatality_rate, date := e.date,
    gdp_growth := e.gdp_growth, unemployment_rate := e.unemployment_rate,
    inflation_rate := e.inflation_rate,
    gdp_growth_change := e.gdp_growth_change,
    unemployment_change := e.unemployment_change,
    inflation_change := e.inflation_change }

/-- Embeds `pd.merge(monthly_covid, economic_df, on='month', how='inner')`:
every aggregate row is paired with every economic row carrying the same
month stamp (left order, then right order — pandas inner-merge order). -/
def mergedWithMonth (c : List CleanCovidRow) (e : List CleanEconRow) :
    List JoinedRow :=
  (monthlyCovid (c.map setCovidMonth)).flatMap
    (fun a =>
      ((e.map setEconMonth).filter
        (fun r => decide (r.month = some a.month))).map (joinRow a))

/-- Embeds `merged_df.drop('month', axis=1)` on one joined row. -/
def dropMonth (j : JoinedRow) : MergedRow :=
  { country := j.country, cases := j.cases, deaths := j.deaths,
    new_cases := j.new_cases, new_deaths := j.new_deaths,
    cases_7day_avg := j.cases_7day_avg, deaths_7day_avg := j.deaths_7day_avg,
    case_fatality_rate := j.case_fatality_rate, date := j.date,
    gdp_growth := j.gdp_growth, unemployment_rate := j.unemployment_rate,
    inflation_rate := j.inflation_rate,
    gdp_growth_change := j.gdp_growth_change,
    unemployment_change := j.unemployment_change,
    inflation_change := j.inflation_change }

/-- The full effect of `DataProcessor.merge_datasets`: the post-call
states of the two argument tables (both receive a `month` column in
place) and the returned merged frame. -/
structure MergeEffect where
  covidAfter : List CleanCovidRow
  econAfter : List CleanEconRow
  merged : List MergedRow
deriving DecidableEq

/-- Embeds `DataProcessor.merge_datasets`: stamps a `month` column onto both
caller tables, aggregates the COVID table by `(country, month)`,
inner-joins to the economic table on `month`, and drops the key from the
returned frame. -/
def merge_datasets (c : List CleanCovidRow) (e : List CleanEconRow) :
    MergeEffect :=
  { covidAfter := c.map setCovidMonth,
    econAfter := e.map setEconMonth,
    merged := (mergedWithMonth c e).map dropMonth }

/-! ## Correlation summarizer (`DataProcessor._calculate_correlations`) -/

/-- The pairwise-complete observations of a driver column (never missing)
against an indicator column (possibly missing): rows whose indicator cell
is missing are excluded, as `Series.corr` does. -/
def pairsOf (df : List MergedRow) (fx : MergedRow → ℚ)
    (fy : MergedRow → Option ℚ) : List (ℚ × ℚ) :=
  df.filterMap (fun r => (fy r).map (fun y => (fx r, y)))

/-- Computes `n·Σxy − Σx·Σy`, the scaled covariance of the paired observations. -/
def covN (ps : List (ℚ × ℚ)) : ℚ :=
  (ps.length : ℚ) * (ps.map (fun p => p.1 * p.2)).sum
    - (ps.map (fun p => p.1)).sum * (ps.map (fun p => p.2)).sum

/-- Computes `n·Σx² − (Σx)²`, the scaled variance of the first coordinates. -/
def varNX (ps : List (ℚ × ℚ)) : ℚ :=
  (ps.length : ℚ) * (ps.map (fun p => p.1 * p.1)).sum
    - (ps.map (fun p => p.1)).sum * (ps.map (fun p => p.1)).sum

/-- Computes `n·Σy² − (Σy)²`, the scaled variance of the second coordinates. -/
def varNY (ps : List (ℚ × ℚ)) : ℚ :=
  (ps.length : ℚ) * (ps.map (fun p => p.2 * p.2)).sum
    - (ps.map (fun p => p.2)).sum * (ps.map (fun p => p.2)).sum

/-- Embeds `Series.corr`: the Pearson coefficient of the paired observations, or
the null marker (`NaN` in pandas, `none` here) when fewer than two pairs
exist or either column has zero variance. -/
noncomputable def corrOpt (ps : List (ℚ × ℚ)) : Option ℝ :=
  if 2 ≤ ps.length ∧ varNX ps ≠ 0 ∧ varNY ps ≠ 0 then
    some ((covN ps : ℝ) / (Real.sqrt (varNX ps) * Real.sqrt (varNY ps)))
  else none

/-- Embeds `DataProcessor._calculate_correlations`: the six named coefficients
between the two drivers and the three indicators. -/
noncomputable def calculate_correlations (df : List MergedRow) :
    List (String × Option ℝ) :=
  [("cases_gdp", corrOpt (pairsOf df (fun r => r.new_cases) (fun r => r.gdp_growth))),
   ("cases_unemployment", corrOpt (pairsOf df (fun r => r.new_cases) (fun r => r.unemployment_rate))),
   ("cases_inflation", corrOpt (pairsOf df (fun r => r.new_cases) (fun r => r.inflation_rate))),
   ("deaths_gdp", corrOpt (pairsOf df (fun r => r.new_deaths) (fun r => r.gdp_growth))),
   ("deaths_unemployment", corrOpt (pairsOf df (fun r => r.new_deaths) (fun r => r.unemployment_rate))),
   ("deaths_inflation", corrOpt (pairsOf df (fun r => r.new_deaths) (fun r => r.inflation_rate)))]

/-- A column is constant when any two of its cells are equal. -/
def constCol (l : List ℚ) : Prop := ∀ a ∈ l, ∀ b ∈ l, a = b

/-! ## Concrete example tables (used to instantiate the theorems) -/

/-- A default joined row (the `getD` fallback in statements). -/
def dJRow : JoinedRow := joinRow
  { country := "", month := 0, cases := 0, deaths := 0, new_cases := 0,
    new_deaths := 0, cases_7day_avg := 0, deaths_7day_avg := 0,
    case_fatality_rate := .fin 0 } dERow

/-- A raw COVID record for country "US" on a given January-2020 day. -/
def usRow (day : ℤ) (cs ds rec : ℚ) : RawCovidRow :=
  { date := .valid ⟨0, day⟩, country := "US", cases := some cs,
    deaths := some ds, recovered := some rec }

/-- The 10-day scenario table of the spec and the repository's test
fixture: country "US", cumulative cases 100,200,…,1000 over consecutive
days. -/
def covidScenario : List RawCovidRow :=
  [usRow 1 100 10 50, usRow 2 200 20 100, usRow 3 300 30 150,
   usRow 4 400 40 200, usRow 5 500 50 250, usRow 6 600 60 300,
   usRow 7 700 70 350, usRow 8 800 80 400, usRow 9 900 90 450,
   usRow 10 1000 100 500]

/-- The cleaned scenario table (the cleaner cannot fail on it). -/
def covidScenarioOut : List CleanCovidRow :=
  (clean_covid_data covidScenario).toOption.getD []

/-- A raw economic record on a given January-2020 day. -/
def econRowOn (day : ℤ) (g u f : ℚ) : RawEconRow :=
  { date := .valid ⟨0, day⟩, gdp_growth := some g,
    unemployment_rate := some u, inflation_rate := some f }

/-- The two-record economic scenario of the spec: `gdp_growth = [2.5, 2.4]`
on consecutive days. -/
def econScenario : List RawEconRow :=
  [econRowOn 1 (5/2) (7/2) 2, econRowOn 2 (12/5) (18/5) (21/10)]

/-- The cleaned economic scenario table. -/
def econScenarioOut : List CleanEconRow :=
  (clean_economic_data econScenario).toOption.getD []

/-- A cleaned COVID row for a given country and month (derived fields
zero), used to exercise the merger. -/
def cleanCovidFor (c : String) (ym : ℤ) : CleanCovidRow :=
  { dCRow with country := c, date := ⟨ym, 1⟩ }

/-- A cleaned economic row for a given month, used to exercise the
merger. -/
def cleanEconFor (ym : ℤ) : CleanEconRow := { dERow with date := ⟨ym, 1⟩ }

/-- A two-day "US" table whose cumulative count decreases (5 then 3). -/
def negDeltaCovid : List RawCovidRow := [usRow 1 5 1 0, usRow 2 3 1 0]

/-- Its cleaned output. -/
def negDeltaOut : List CleanCovidRow :=
  (clean_covid_data negDeltaCovid).toOption.getD []

/-- A one-row table with `cases = 0` and `deaths = 5` (the division-fault
edge case). -/
def zeroCasesCovid : List RawCovidRow := [usRow 1 0 5 0]

/-- A one-row table with `cases = 4` and `deaths = 1`. -/
def smallCovid : List RawCovidRow := [usRow 1 4 1 0]

/-- A COVID table whose only record has an unparseable date. -/
def badDateCovid : List RawCovidRow :=
  [{ date := .invalid "not-a-date", country := "US", cases := some 1,
     deaths := some 0, recovered := some 0 }]

/-- An economic table whose only record has an unparseable date. -/
def badDateEcon : List RawEconRow :=
  [{ date := .invalid "bogus", gdp_growth := some 1,
     unemployment_rate := some 1, inflation_rate := some 1 }]

/-- A merged row with chosen `new_cases` and `gdp_growth` cells (all other
cells inert), to exercise the correlation summarizer. -/
def mergedRowFor (nc : ℚ) (g : Option ℚ) : MergedRow :=
  { country := "US", cases := 0, deaths := 0, new_cases := nc, new_deaths := 0,
    cases_7day_avg := 0, deaths_7day_avg := 0, case_fatality_rate := .fin 0,
    date := ⟨0, 1⟩, gdp_growth := g, unemployment_rate := none,
    inflation_rate := none, gdp_growth_change := .nan,
    unemployment_change := .nan, inflation_change := .nan }

/-- A two-row merged table on which `new_cases` and `gdp_growth` are
perfectly correlated. -/
def corrSample : List MergedRow :=
  [mergedRowFor 0 (some 0), mergedRowFor 1 (some 1)]

/-! ## Supporting lemmas -/

theorem mkCleanG_country (g : List CleanCovidRow) (r : FCovidRow) :
    (mkCleanG g r).country = r.country := rfl

theorem mkCleanG_cases (g : List CleanCovidRow) (r : FCovidRow) :
    (mkCleanG g r).cases = r.cases := rfl

theorem mkCleanG_deaths (g : List CleanCovidRow) (r : FCovidRow) :
    (mkCleanG g r).deaths = r.deaths := rfl

theorem mkCleanG_new_cases (g : List CleanCovidRow) (r : FCovidRow) :
    (mkCleanG g r).new_cases =
      match g.getLast? with
      | none => 0
      | some p => r.cases - p.cases := rfl

theorem mkCleanG_new_deaths (g : List CleanCovidRow) (r : FCovidRow) :
    (mkCleanG g r).new_deaths =
      match g.getLast? with
      | none => 0
      | some p => r.deaths - p.deaths := rfl

theorem cleanGroup_length (g : List CleanCovidRow) (l : List FCovidRow) :
    (cleanGroup g l).length = l.length := by
  induction l generalizing g with
  | nil => rfl
  | cons r rest ih => simp [cleanGroup, ih]

theorem cleanRows_filter (pre : List CleanCovidRow) (l : List FCovidRow) (c : String) :
    (cleanRows pre l).filter (fun x => decide (x.country = c)) =
      cleanGroup (pre.filter (fun x => decide (x.country = c)))
        (l.filter (fun x => decide (x.country = c))) := by
  induction l generalizing pre with
  | nil => rfl
  | cons r rest ih =>
    by_cases hc : r.country = c
    · rw [cleanRows, hc]
      have h1 : (decide ((mkCleanG (pre.filter fun x => decide (x.country = c)) r).country = c))
          = true := by simp [mkCleanG_country, hc]
      have h2 : decide (r.country = c) = true := by simp [hc]
      rw [List.filter_cons, List.filter_cons, h1, h2, if_pos rfl, if_pos rfl, ih]
      simp only [cleanGroup]
      congr 1
      rw [List.filter_append, List.filter_cons, h1, if_pos rfl]
      rfl
    · have h1 : (decide ((mkCleanG (pre.filter fun x => decide (x.country = r.country)) r).country = c))
          = false := by simp [mkCleanG_country, hc]
      have h2 : decide (r.country = c) = false := by simp [hc]
      rw [cleanRows, List.filter_cons, List.filter_cons, h1, h2,
        if_neg Bool.false_ne_true, if_neg Bool.false_ne_true, ih]
      congr 1
      rw [List.filter_append, List.filter_cons, h1, if_neg Bool.false_ne_true]
      simp

theorem cleanGroup_getElem? (g : List CleanCovidRow) (l : List FCovidRow) (k : ℕ) :
    (cleanGroup g l)[k]? =
      l[k]?.map (fun r => mkCleanG (g ++ (cleanGroup g l).take k) r) := by
  induction l generalizing g k with
  | nil => simp [cleanGroup]
  | cons r rest ih =>
    cases k with
    | zero => simp [cleanGroup]
    | succ k =>
      have hpre : (g ++ [mkCleanG g r]) ++ (cleanGroup (g ++ [mkCleanG g r]) rest).take k
          = g ++ ((mkCleanG g r) :: cleanGroup (g ++ [mkCleanG g r]) rest).take (k + 1) := by
        conv_rhs => rw [List.take_succ_cons, List.append_cons]
      simp only [cleanGroup, List.getElem?_cons_succ, ih]
      simp only [← hpre]

theorem getD_mem_of_lt {α : Type} (l : List α) (i : ℕ) (d : α) (h : i < l.length) :
    l.getD i d ∈ l := by
  rw [List.getD_eq_getElem l d h]
  exact List.getElem_mem h

theorem getLast?_take_eq {α : Type} (l : List α) (i : ℕ) (h0 : 0 < i)
    (hle : i ≤ l.length) : (l.take i).getLast? = l[i - 1]? := by
  rw [List.getLast?_eq_getElem?, List.length_take, Nat.min_eq_left hle,
    List.getElem?_take, if_pos (by omega)]

theorem clean_covid_ok (raw : List RawCovidRow) (out : List CleanCovidRow)
    (h : clean_covid_data raw = .ok out) :
    ∃ ps, parseCovidRows raw = .ok ps ∧
      out = cleanRows []
        ((sortLe (fun a b => dateLe a.date b.date) ps).map fillCovidRow) := by
  unfold clean_covid_data at h
  cases hp : parseCovidRows raw with
  | error e => rw [hp] at h; exact absurd h (by simp)
  | ok ps =>
    rw [hp] at h
    simp only [Except.ok.injEq] at h
    exact ⟨ps, rfl, h.symm⟩

/-- Claim C1: After `clean_covid_data` sorts by date, within each country
group `new_cases` at group position `i > 0` equals `cases[i] − cases[i−1]`
and `new_deaths[i] = deaths[i] − deaths[i−1]`; at the first position of a
group both are 0.  Negative differences are exactly the subtraction
result — no clamping. -/
theorem c1_daily_deltas (raw : List RawCovidRow) (out : List CleanCovidRow)
    (h : clean_covid_data raw = .ok out) (c : String) (i : ℕ)
    (hi : i < (covidGroup out c).length) :
    ((covidGroup out c).getD i dCRow).new_cases =
      (if i = 0 then 0 else
        ((covidGroup out c).getD i dCRow).cases
          - ((covidGroup out c).getD (i - 1) dCRow).cases) ∧
    ((covidGroup out c).getD i dCRow).new_deaths =
      (if i = 0 then 0 else
        ((covidGroup out c).getD i dCRow).deaths
          - ((covidGroup out c).getD (i - 1) dCRow).deaths) := by
  obtain ⟨ps, hp, hout⟩ := clean_covid_ok raw out h
  have hgrp : covidGroup out c =
      cleanGroup []
        (((sortLe (fun a b => dateLe a.date b.date) ps).map fillCovidRow).filter
          (fun x => decide (x.country = c))) := by
    rw [covidGroup, hout, cleanRows_filter, List.filter_nil]
  set g := covidGroup out c with hgdef
  set gl := ((sortLe (fun a b => dateLe a.date b.date) ps).map fillCovidRow).filter
    (fun x => decide (x.country = c)) with hgl
  have hlen : g.length = gl.length := by rw [hgrp, cleanGroup_length]
  have hi' : i < gl.length := hlen ▸ hi
  have h1 : g[i]? = some (mkCleanG (g.take i) gl[i]) := by
    rw [hgrp, cleanGroup_getElem?, List.getElem?_eq_getElem hi']
    simp only [Option.map_some', List.nil_append, ← hgrp]
  have hrowi : g.getD i dCRow = mkCleanG (g.take i) gl[i] := by
    rw [List.getD_eq_getElem _ _ hi]
    exact Option.some.inj (by rw [← List.getElem?_eq_getElem hi, h1])
  have him1 : i ≠ 0 → i - 1 < g.length := fun _ => by omega
  constructor
  · rw [hrowi, mkCleanG_new_cases, mkCleanG_cases]
    by_cases h0 : i = 0
    · subst h0; simp
    · rw [if_neg h0, getLast?_take_eq g i (Nat.pos_of_ne_zero h0) (le_of_lt hi),
        List.getElem?_eq_getElem (him1 h0), List.getD_eq_getElem _ _ (him1 h0)]
  · rw [hrowi, mkCleanG_new_deaths, mkCleanG_deaths]
    by_cases h0 : i = 0
    · subst h0; simp
    · rw [if_neg h0, getLast?_take_eq g i (Nat.pos_of_ne_zero h0) (le_of_lt hi),
        List.getElem?_eq_getElem (him1 h0), List.getD_eq_getElem _ _ (him1 h0)]

/-- Witness for C1: a concrete two-day "US" table with a decreasing
cumulative count (5 then 3); the second group position satisfies the delta
equations, and the delta is the negative value `3 − 5 = −2`, passed through
unclamped. -/
theorem c1_daily_deltas_witness :
    ((covidGroup negDeltaOut "US").getD 1 dCRow).new_cases =
      (if 1 = 0 then 0 else
        ((covidGroup negDeltaOut "US").getD 1 dCRow).cases
          - ((covidGroup negDeltaOut "US").getD (1 - 1) dCRow).cases) ∧
    ((covidGroup negDeltaOut "US").getD 1 dCRow).new_cases = -2 := by
  constructor
  · exact (c1_daily_deltas negDeltaCovid negDeltaOut rfl "US" 1 (by decide)).1
  · rw [show ((covidGroup negDeltaOut "US").getD 1 dCRow).new_cases = (3 : ℚ) - 5 from rfl]
    norm_num

theorem sum_eq_sum_range (l : List ℚ) :
    l.sum = ∑ j ∈ Finset.range l.length, l.getD j 0 := by
  induction l with
  | nil => simp
  | cons x xs ih =>
    rw [List.sum_cons, List.length_cons, Finset.sum_range_succ']
    simp only [List.getD_cons_succ, List.getD_cons_zero]
    rw [← ih, add_comm]

theorem mkCleanG_avg_cases (g : List CleanCovidRow) (r : FCovidRow) :
    (mkCleanG g r).cases_7day_avg =
      (lastN 7 (g.map (fun x => x.new_cases) ++ [(mkCleanG g r).new_cases])).sum
        / ((lastN 7 (g.map (fun x => x.new_cases) ++ [(mkCleanG g r).new_cases])).length : ℚ) :=
  rfl

theorem mkCleanG_avg_deaths (g : List CleanCovidRow) (r : FCovidRow) :
    (mkCleanG g r).deaths_7day_avg =
      (lastN 7 (g.map (fun x => x.new_deaths) ++ [(mkCleanG g r).new_deaths])).sum
        / ((lastN 7 (g.map (fun x => x.new_deaths) ++ [(mkCleanG g r).new_deaths])).length : ℚ) :=
  rfl

theorem covidGroup_row (raw : List RawCovidRow) (out : List CleanCovidRow)
    (h : clean_covid_data raw = .ok out) (c : String) (i : ℕ)
    (hi : i < (covidGroup out c).length) :
    ∃ r : FCovidRow,
      (covidGroup out c).getD i dCRow = mkCleanG ((covidGroup out c).take i) r := by
  obtain ⟨ps, hp, hout⟩ := clean_covid_ok raw out h
  have hgrp : covidGroup out c =
      cleanGroup []
        (((sortLe (fun a b => dateLe a.date b.date) ps).map fillCovidRow).filter
          (fun x => decide (x.country = c))) := by
    rw [covidGroup, hout, cleanRows_filter, List.filter_nil]
  set g := covidGroup out c with hgdef
  set gl := ((sortLe (fun a b => dateLe a.date b.date) ps).map fillCovidRow).filter
    (fun x => decide (x.country = c)) with hgl
  have hlen : g.length = gl.length := by rw [hgrp, cleanGroup_length]
  have hi' : i < gl.length := hlen ▸ hi
  have h1 : g[i]? = some (mkCleanG (g.take i) gl[i]) := by
    rw [hgrp, cleanGroup_getElem?, List.getElem?_eq_getElem hi']
    simp only [Option.map_some', List.nil_append, ← hgrp]
  refine ⟨gl[i], ?_⟩
  rw [List.getD_eq_getElem _ _ hi]
  exact Option.some.inj (by rw [← List.getElem?_eq_getElem hi, h1])

theorem map_take_succ (g : List CleanCovidRow) (i : ℕ) (hi : i < g.length)
    (f : CleanCovidRow → ℚ) :
    (g.take i).map f ++ [f (g.getD i dCRow)] = (g.take (i + 1)).map f := by
  rw [List.getD_eq_getElem _ _ hi, List.map_take, List.map_take, List.take_succ,
    List.getElem?_map, List.getElem?_eq_getElem hi]
  simp

theorem window_sum_eq (g : List CleanCovidRow) (i : ℕ) (hi : i < g.length)
    (f : CleanCovidRow → ℚ) :
    (lastN 7 ((g.take (i + 1)).map f)).sum
        / ((lastN 7 ((g.take (i + 1)).map f)).length : ℚ) =
      (∑ j ∈ Finset.range (min 7 (i + 1)), f (g.getD (i - j) dCRow))
        / ((min 7 (i + 1) : ℕ) : ℚ) := by
  have hlen : ((g.take (i + 1)).map f).length = i + 1 := by
    simp [List.length_take]
    omega
  have hwlen : (lastN 7 ((g.take (i + 1)).map f)).length = min 7 (i + 1) := by
    rw [lastN, List.length_drop, hlen]
    omega
  have hsum : (lastN 7 ((g.take (i + 1)).map f)).sum =
      ∑ j ∈ Finset.range (min 7 (i + 1)), f (g.getD (i - j) dCRow) := by
    rw [sum_eq_sum_range, hwlen]
    conv_rhs => rw [← Finset.sum_range_reflect]
    apply Finset.sum_congr rfl
    intro j hj
    rw [Finset.mem_range] at hj
    have hidx : (i + 1) - 7 + j < i + 1 := by omega
    have hidx2 : (i + 1) - 7 + j < g.length := by omega
    have heq : i - (min 7 (i + 1) - 1 - j) = i + 1 - 7 + j := by omega
    rw [lastN, hlen, List.getD_eq_getElem?_getD, List.getElem?_drop,
      List.getElem?_eq_getElem (by rw [hlen]; exact hidx), Option.getD_some,
      List.getElem_map, List.getElem_take, heq, List.getD_eq_getElem _ _ hidx2]
  rw [hsum, hwlen]

/-- Claim C2: For every cleaned COVID table and every position `i` of a
country group, `cases_7day_avg[i]` is the arithmetic mean of `new_cases`
over the trailing window of the `min 7 (i+1)` group records ending at
`i` (the window shrinks at the group start, so position 0 is defined),
and likewise `deaths_7day_avg` over `new_deaths`. -/
theorem c2_rolling_means (raw : List RawCovidRow) (out : List CleanCovidRow)
    (h : clean_covid_data raw = .ok out) (c : String) (i : ℕ)
    (hi : i < (covidGroup out c).length) :
    ((covidGroup out c).getD i dCRow).cases_7day_avg =
      (∑ j ∈ Finset.range (min 7 (i + 1)),
        ((covidGroup out c).getD (i - j) dCRow).new_cases)
        / ((min 7 (i + 1) : ℕ) : ℚ) ∧
    ((covidGroup out c).getD i dCRow).deaths_7day_avg =
      (∑ j ∈ Finset.range (min 7 (i + 1)),
        ((covidGroup out c).getD (i - j) dCRow).new_deaths)
        / ((min 7 (i + 1) : ℕ) : ℚ) := by
  obtain ⟨r, hrow⟩ := covidGroup_row raw out h c i hi
  set g := covidGroup out c with hgdef
  constructor
  · rw [hrow, mkCleanG_avg_cases, ← hrow,
      map_take_succ g i hi (fun x => x.new_cases)]
    exact window_sum_eq g i hi (fun x => x.new_cases)
  · rw [hrow, mkCleanG_avg_deaths, ← hrow,
      map_take_succ g i hi (fun x => x.new_deaths)]
    exact window_sum_eq g i hi (fun x => x.new_deaths)

/-- Witness for C2: in the 10-day "US" scenario (`cases = 100,…,1000`),
`cases_7day_avg` at day 10 (group position 9) equals the mean of the last
7 delta values. -/
theorem c2_rolling_means_witness :
    ((covidGroup covidScenarioOut "US").getD 9 dCRow).cases_7day_avg =
      (∑ j ∈ Finset.range (min 7 (9 + 1)),
        ((covidGroup covidScenarioOut "US").getD (9 - j) dCRow).new_cases)
        / ((min 7 (9 + 1) : ℕ) : ℚ) :=
  (c2_rolling_means covidScenario covidScenarioOut rfl "US" 9 (by decide)).1

theorem cleanRows_mem (pre : List CleanCovidRow) (l : List FCovidRow)
    (row : CleanCovidRow) (hrow : row ∈ cleanRows pre l) :
    ∃ g r, row = mkCleanG g r := by
  induction l generalizing pre with
  | nil => cases hrow
  | cons r rest ih =>
    simp only [cleanRows, List.mem_cons] at hrow
    rcases hrow with heq | hmem
    · exact ⟨_, _, heq⟩
    · exact ih _ hmem

/-- Counterexample to C4 as stated: on the one-row table with `cases = 0`
and `deaths = 5` the cleaner succeeds, but `case_fatality_rate` is the
`+inf` that pandas produces for `5/0` (which `fillna(0)` does not touch) —
not 0. -/
theorem c4_cfr_counterexample :
    (clean_covid_data zeroCasesCovid).toOption.map
        (fun l => l.map (fun r => (r.cases, r.case_fatality_rate)))
      = some [((0 : ℚ), PVal.posInf)] ∧ PVal.posInf ≠ PVal.fin 0 := by
  constructor
  · rfl
  · decide

/-- Claim C4, amended: For every row of the output of `clean_covid_data`,
`case_fatality_rate = deaths/cases·100` when `cases ≠ 0`; when
`cases = 0` it is 0 only if `deaths = 0` (the `0/0 → NaN → fillna(0)`
path), and it is `+inf` when `deaths > 0` (pandas `deaths/0`, untouched by
`fillna`).  No division fault is raised in any case. -/
theorem c4_cfr_amended (raw : List RawCovidRow) (out : List CleanCovidRow)
    (h : clean_covid_data raw = .ok out) (row : CleanCovidRow)
    (hrow : row ∈ out) :
    (row.cases ≠ 0 →
      row.case_fatality_rate = .fin (row.deaths / row.cases * 100)) ∧
    (row.cases = 0 → row.deaths = 0 → row.case_fatality_rate = .fin 0) ∧
    (row.cases = 0 → 0 < row.deaths → row.case_fatality_rate = .posInf) := by
  obtain ⟨ps, hp, hout⟩ := clean_covid_ok raw out h
  rw [hout] at hrow
  obtain ⟨g, r, hr⟩ := cleanRows_mem _ _ row hrow
  have hcfr : row.case_fatality_rate = pfillna0 (pmul100 (pdiv r.deaths r.cases)) := by
    rw [hr]; rfl
  have hcs : row.cases = r.cases := by rw [hr, mkCleanG_cases]
  have hds : row.deaths = r.deaths := by rw [hr, mkCleanG_deaths]
  refine ⟨?_, ?_, ?_⟩
  · intro hne
    rw [hcs] at hne
    rw [hcfr, hcs, hds, pdiv, if_neg hne]
    rfl
  · intro h0 hd0
    rw [hcs] at h0
    rw [hds] at hd0
    rw [hcfr, pdiv, if_pos h0, if_pos hd0]
    rfl
  · intro h0 hdpos
    rw [hcs] at h0
    rw [hds] at hdpos
    rw [hcfr, pdiv, if_pos h0, if_neg (by exact ne_of_gt hdpos), if_pos hdpos]
    rfl

/-- Witness for the amended C4: on a one-row table with `cases = 4`,
`deaths = 1`, the fatality rate is exactly `deaths/cases·100`. -/
theorem c4_cfr_amended_witness :
    (((clean_covid_data smallCovid).toOption.getD []).getD 0 dCRow).case_fatality_rate
      = .fin ((((clean_covid_data smallCovid).toOption.getD []).getD 0 dCRow).deaths
          / (((clean_covid_data smallCovid).toOption.getD []).getD 0 dCRow).cases * 100) := by
  refine (c4_cfr_amended smallCovid ((clean_covid_data smallCovid).toOption.getD [])
    rfl _ (getD_mem_of_lt _ 0 dCRow (by decide))).1 ?_
  rw [show (((clean_covid_data smallCovid).toOption.getD []).getD 0 dCRow).cases = (4 : ℚ)
    from rfl]
  norm_num

theorem pctChange100_none_left (c : Option ℚ) : pctChange100 none c = .nan := by
  cases c <;> rfl

theorem pctChange100_some_some (p c : ℚ) (hp : p ≠ 0) :
    pctChange100 (some p) (some c) = .fin ((c - p) / p * 100) := by
  simp [pctChange100, hp]

theorem econEntry_none_changes (r : PEconRow) :
    (econEntry none r).gdp_growth_change = .nan ∧
    (econEntry none r).unemployment_change = .nan ∧
    (econEntry none r).inflation_change = .nan := by
  refine ⟨?_, ?_, ?_⟩ <;>
    simp [econEntry, Option.bind, pctChange100_none_left]

theorem econChanges_length (prev : Option PEconRow) (l : List PEconRow) :
    (econChanges prev l).length = l.length := by
  induction l generalizing prev with
  | nil => rfl
  | cons r rest ih => simp [econChanges, ih]

theorem econChanges_getElem?_zero (prev : Option PEconRow) (l : List PEconRow) :
    (econChanges prev l)[0]? = (l[0]?).map (econEntry prev) := by
  cases l with
  | nil => rfl
  | cons h t => simp [econChanges]

theorem econChanges_getElem?_succ (prev : Option PEconRow) (l : List PEconRow)
    (k : ℕ) :
    (econChanges prev l)[k + 1]? =
      l[k]?.bind (fun p => (l[k + 1]?).map (econEntry (some p))) := by
  induction l generalizing prev k with
  | nil => simp [econChanges]
  | cons r rest ih =>
    cases k with
    | zero =>
      simp only [econChanges, List.getElem?_cons_succ, List.getElem?_cons_zero,
        Option.some_bind]
      exact econChanges_getElem?_zero (some r) rest
    | succ k =>
      simp only [econChanges, List.getElem?_cons_succ]
      exact ih (some r) k

theorem econChanges_row (prev : Option PEconRow) (l : List PEconRow) (k : ℕ)
    (hk : k < l.length) :
    ∃ pr, (econChanges prev l).getD k dERow = econEntry pr l[k] := by
  have hk' : k < (econChanges prev l).length := by rw [econChanges_length]; exact hk
  cases k with
  | zero =>
    refine ⟨prev, ?_⟩
    rw [List.getD_eq_getElem _ _ hk']
    apply Option.some.inj
    rw [← List.getElem?_eq_getElem hk', econChanges_getElem?_zero,
      List.getElem?_eq_getElem hk]
    rfl
  | succ k =>
    refine ⟨some l[k], ?_⟩
    rw [List.getD_eq_getElem _ _ hk']
    apply Option.some.inj
    rw [← List.getElem?_eq_getElem hk', econChanges_getElem?_succ,
      List.getElem?_eq_getElem hk,
      List.getElem?_eq_getElem (show k < l.length by omega)]
    rfl

theorem clean_econ_ok (raw : List RawEconRow) (out : List CleanEconRow)
    (h : clean_economic_data raw = .ok out) :
    ∃ ps, parseEconRows raw = .ok ps ∧
      out = econChanges none
        (ffillRows none none none (sortLe (fun a b => dateLe a.date b.date) ps)) := by
  unfold clean_economic_data at h
  cases hp : parseEconRows raw with
  | error e => rw [hp] at h; exact absurd h (by simp)
  | ok ps =>
    rw [hp] at h
    simp only [Except.ok.injEq] at h
    exact ⟨ps, rfl, h.symm⟩

/-- Claim C5: After `clean_economic_data` sorts by date, each of
`gdp_growth_change`, `unemployment_change`, `inflation_change` at
position `i > 0` equals `(curr − prev)/prev · 100` of the corresponding
indicator (whenever both cells are present and the previous value is
nonzero, so the quotient is meaningful), and at position 0 all three are
the `NaN` marker — never 0. -/
theorem c5_econ_pct_changes (raw : List RawEconRow) (out : List CleanEconRow)
    (h : clean_economic_data raw = .ok out) :
    (∀ r0, out.head? = some r0 →
      r0.gdp_growth_change = .nan ∧ r0.unemployment_change = .nan ∧
        r0.inflation_change = .nan) ∧
    (∀ i, 0 < i → i < out.length →
      (∀ p c, (out.getD (i - 1) dERow).gdp_growth = some p →
        (out.getD i dERow).gdp_growth = some c → p ≠ 0 →
        (out.getD i dERow).gdp_growth_change = .fin ((c - p) / p * 100)) ∧
      (∀ p c, (out.getD (i - 1) dERow).unemployment_rate = some p →
        (out.getD i dERow).unemployment_rate = some c → p ≠ 0 →
        (out.getD i dERow).unemployment_change = .fin ((c - p) / p * 100)) ∧
      (∀ p c, (out.getD (i - 1) dERow).inflation_rate = some p →
        (out.getD i dERow).inflation_rate = some c → p ≠ 0 →
        (out.getD i dERow).inflation_change = .fin ((c - p) / p * 100))) := by
  obtain ⟨ps, hp0, hout⟩ := clean_econ_ok raw out h
  set L := ffillRows none none none (sortLe (fun a b => dateLe a.date b.date) ps)
    with hLdef
  have hlen : out.length = L.length := by rw [hout, econChanges_length]
  constructor
  · intro r0 h0
    rw [hout, List.head?_eq_getElem?, econChanges_getElem?_zero] at h0
    rcases Option.map_eq_some'.mp h0 with ⟨r, _, hre⟩
    rw [← hre]
    exact econEntry_none_changes r
  · intro i hi0 hilen
    obtain ⟨k, rfl⟩ : ∃ k, i = k + 1 := ⟨i - 1, by omega⟩
    have hkL : k < L.length := by omega
    have hk1L : k + 1 < L.length := by omega
    have hrow : out.getD (k + 1) dERow = econEntry (some L[k]) L[k + 1] := by
      rw [List.getD_eq_getElem _ _ hilen]
      exact Option.some.inj (by
        rw [← List.getElem?_eq_getElem hilen, hout, econChanges_getElem?_succ,
          List.getElem?_eq_getElem hkL, List.getElem?_eq_getElem hk1L]
        rfl)
    obtain ⟨pr, hprev⟩ := econChanges_row none L k hkL
    rw [← hout] at hprev
    have hidx : k + 1 - 1 = k := by omega
    refine ⟨?_, ?_, ?_⟩ <;> intro p c hp hc hpne
    · rw [hidx, hprev] at hp
      rw [hrow] at hc ⊢
      have hpv : L[k].gdp_growth = some p := hp
      have hcv : L[k + 1].gdp_growth = some c := hc
      show pctChange100 ((some L[k]).bind fun q => q.gdp_growth)
        L[k + 1].gdp_growth = _
      rw [Option.some_bind, hpv, hcv, pctChange100_some_some p c hpne]
    · rw [hidx, hprev] at hp
      rw [hrow] at hc ⊢
      have hpv : L[k].unemployment_rate = some p := hp
      have hcv : L[k + 1].unemployment_rate = some c := hc
      show pctChange100 ((some L[k]).bind fun q => q.unemployment_rate)
        L[k + 1].unemployment_rate = _
      rw [Option.some_bind, hpv, hcv, pctChange100_some_some p c hpne]
    · rw [hidx, hprev] at hp
      rw [hrow] at hc ⊢
      have hpv : L[k].inflation_rate = some p := hp
      have hcv : L[k + 1].inflation_rate = some c := hc
      show pctChange100 ((some L[k]).bind fun q => q.inflation_rate)
        L[k + 1].inflation_rate = _
      rw [Option.some_bind, hpv, hcv, pctChange100_some_some p c hpne]

/-- Witness for C5: on the economic scenario `gdp_growth = [2.5, 2.4]`,
the change at position 1 is `(2.4 − 2.5)/2.5·100`, i.e. exactly −4. -/
theorem c5_econ_pct_changes_witness :
    (econScenarioOut.getD 1 dERow).gdp_growth_change
        = .fin (((12/5 : ℚ) - 5/2) / (5/2) * 100) ∧
    (econScenarioOut.getD 1 dERow).gdp_growth_change = .fin (-4) := by
  have h := ((c5_econ_pct_changes econScenario econScenarioOut rfl).2 1
    (by decide) (by decide)).1 (5/2) (12/5) rfl rfl (by norm_num)
  exact ⟨h, by rw [h]; exact congrArg PVal.fin (by norm_num)⟩

theorem parseCovidRows_error (raw : List RawCovidRow)
    (hbad : ∃ r ∈ raw, ∃ s, r.date = .invalid s) :
    ∃ s, parseCovidRows raw = .error ⟨s⟩ ∧ ∃ r ∈ raw, r.date = .invalid s := by
  induction raw with
  | nil => rcases hbad with ⟨r, hr, _⟩; cases hr
  | cons r rest ih =>
    cases hd : r.date with
    | invalid s =>
      refine ⟨s, ?_, r, List.mem_cons_self r rest, hd⟩
      simp [parseCovidRows, hd, parseDate]
    | valid d =>
      have hbad' : ∃ r' ∈ rest, ∃ s, r'.date = .invalid s := by
        rcases hbad with ⟨r', hr', s, hs⟩
        rcases List.mem_cons.mp hr' with heq | hmem
        · subst heq; rw [hd] at hs; cases hs
        · exact ⟨r', hmem, s, hs⟩
      obtain ⟨s, herr, r', hmem, hs⟩ := ih hbad'
      refine ⟨s, ?_, r', List.mem_cons_of_mem r hmem, hs⟩
      simp [parseCovidRows, hd, parseDate, herr]

theorem parseEconRows_error (raw : List RawEconRow)
    (hbad : ∃ r ∈ raw, ∃ s, r.date = .invalid s) :
    ∃ s, parseEconRows raw = .error ⟨s⟩ ∧ ∃ r ∈ raw, r.date = .invalid s := by
  induction raw with
  | nil => rcases hbad with ⟨r, hr, _⟩; cases hr
  | cons r rest ih =>
    cases hd : r.date with
    | invalid s =>
      refine ⟨s, ?_, r, List.mem_cons_self r rest, hd⟩
      simp [parseEconRows, hd, parseDate]
    | valid d =>
      have hbad' : ∃ r' ∈ rest, ∃ s, r'.date = .invalid s := by
        rcases hbad with ⟨r', hr', s, hs⟩
        rcases List.mem_cons.mp hr' with heq | hmem
        · subst heq; rw [hd] at hs; cases hs
        · exact ⟨r', hmem, s, hs⟩
      obtain ⟨s, herr, r', hmem, hs⟩ := ih hbad'
      refine ⟨s, ?_, r', List.mem_cons_of_mem r hmem, hs⟩
      simp [parseEconRows, hd, parseDate, herr]

/-- Claim C8: If an input table contains a date that cannot be parsed, the
corresponding cleaner fails with the `MalformedInputError` arising from
that very date — the error of the parse step propagates unchanged to the
caller, and no cleaned table is produced (the result is `error`, not
`ok`). -/
theorem c8_malformed_dates (rc : List RawCovidRow) (re : List RawEconRow) :
    ((∃ r ∈ rc, ∃ s, r.date = .invalid s) →
      ∃ s, clean_covid_data rc = .error ⟨s⟩ ∧ ∃ r ∈ rc, r.date = .invalid s) ∧
    ((∃ r ∈ re, ∃ s, r.date = .invalid s) →
      ∃ s, clean_economic_data re = .error ⟨s⟩ ∧ ∃ r ∈ re, r.date = .invalid s) := by
  constructor
  · intro hbad
    obtain ⟨s, herr, hwit⟩ := parseCovidRows_error rc hbad
    exact ⟨s, by simp [clean_covid_data, herr], hwit⟩
  · intro hbad
    obtain ⟨s, herr, hwit⟩ := parseEconRows_error re hbad
    exact ⟨s, by simp [clean_economic_data, herr], hwit⟩

/-- Witness for C8: the one-row tables with unparseable dates make both
cleaners return the propagated `MalformedInputError`. -/
theorem c8_malformed_dates_witness :
    (∃ s, clean_covid_data badDateCovid = .error ⟨s⟩ ∧
      ∃ r ∈ badDateCovid, r.date = .invalid s) ∧
    (∃ s, clean_economic_data badDateEcon = .error ⟨s⟩ ∧
      ∃ r ∈ badDateEcon, r.date = .invalid s) :=
  ⟨(c8_malformed_dates badDateCovid badDateEcon).1
      ⟨_, List.mem_cons_self _ _, "not-a-date", rfl⟩,
    (c8_malformed_dates badDateCovid badDateEcon).2
      ⟨_, List.mem_cons_self _ _, "bogus", rfl⟩⟩

theorem joinRow_month (a : MonthlyRow) (e : CleanEconRow) :
    (joinRow a e).month = a.month := rfl

theorem flatMap_const_nil {α β : Type} (l : List α) (f : α → List β)
    (hf : ∀ a, f a = []) : l.flatMap f = [] := by
  induction l with
  | nil => rfl
  | cons x xs ih => rw [List.flatMap_cons, hf x, ih]; rfl

/-- Claim C3: Every row of the inner-join result of `merge_datasets` carries
a month present in both the aggregated COVID table and the economic table
(join on month only); and if either input table is empty, the merged
result is the empty table (the function is total — no error is raised). -/
theorem c3_inner_join (c : List CleanCovidRow) (e : List CleanEconRow) :
    (∀ row ∈ mergedWithMonth c e,
      (∃ a ∈ monthlyCovid (c.map setCovidMonth), a.month = row.month) ∧
      (∃ r ∈ e, r.date.ym = row.month)) ∧
    (c = [] → (merge_datasets c e).merged = []) ∧
    (e = [] → (merge_datasets c e).merged = []) := by
  refine ⟨?_, ?_, ?_⟩
  · intro row hrow
    rw [mergedWithMonth, List.mem_flatMap] at hrow
    obtain ⟨a, ha, hrow⟩ := hrow
    rw [List.mem_map] at hrow
    obtain ⟨er, her, hje⟩ := hrow
    rw [List.mem_filter] at her
    obtain ⟨herm, hermonth⟩ := her
    rw [List.mem_map] at herm
    obtain ⟨r0, hr0, hr0e⟩ := herm
    constructor
    · exact ⟨a, ha, by rw [← hje]; rfl⟩
    · refine ⟨r0, hr0, ?_⟩
      have h1 : er.month = some a.month := by simpa using hermonth
      have h2 : er.month = some r0.date.ym := by rw [← hr0e]; rfl
      have h3 : r0.date.ym = a.month := by
        rw [h2] at h1
        exact Option.some.inj h1
      rw [h3, ← hje]
      rfl
  · intro hc
    subst hc
    rfl
  · intro he
    subst he
    have hnil : (monthlyCovid (c.map setCovidMonth)).flatMap
        (fun a => ((([] : List CleanEconRow).map setEconMonth).filter
          (fun r => decide (r.month = some a.month))).map (joinRow a)) = [] :=
      flatMap_const_nil _ _ (fun a => rfl)
    show ((mergedWithMonth c []).map dropMonth) = []
    rw [mergedWithMonth, hnil]
    rfl

/-- Witness for C3: a concrete merge (one "US" aggregate for month 0, one
economic record in month 0) in which the joined row's month indeed occurs
on both sides, and the two empty-input cases. -/
theorem c3_inner_join_witness :
    ((∃ a ∈ monthlyCovid ([cleanCovidFor "US" 0].map setCovidMonth),
        a.month = ((mergedWithMonth [cleanCovidFor "US" 0] [cleanEconFor 0]).getD 0 dJRow).month) ∧
      (∃ r ∈ [cleanEconFor 0],
        r.date.ym = ((mergedWithMonth [cleanCovidFor "US" 0] [cleanEconFor 0]).getD 0 dJRow).month)) ∧
    (merge_datasets [] [cleanEconFor 0]).merged = [] ∧
    (merge_datasets [cleanCovidFor "US" 0] []).merged = [] := by
  refine ⟨?_, ?_, ?_⟩
  · exact (c3_inner_join [cleanCovidFor "US" 0] [cleanEconFor 0]).1
      ((mergedWithMonth [cleanCovidFor "US" 0] [cleanEconFor 0]).getD 0 dJRow)
      (getD_mem_of_lt _ 0 dJRow (by decide))
  · exact (c3_inner_join [] [cleanEconFor 0]).2.1 rfl
  · exact (c3_inner_join [cleanCovidFor "US" 0] []).2.2 rfl

theorem filter_const_month (m am : ℤ) (L : List JoinedRow)
    (hL : ∀ j ∈ L, j.month = am) :
    (L.filter (fun j => decide (j.month = m))).length =
      if am = m then L.length else 0 := by
  induction L with
  | nil => simp
  | cons j rest ih =>
    have hj : j.month = am := hL j (List.mem_cons_self _ _)
    have hrest : ∀ x ∈ rest, x.month = am := fun x hx =>
      hL x (List.mem_cons_of_mem _ hx)
    rw [List.filter_cons]
    by_cases ham : am = m
    · rw [if_pos (by simp [hj, ham]), List.length_cons, ih hrest]
      simp [ham]
    · rw [if_neg (by simp [hj, ham]), ih hrest]
      simp [ham]

theorem flatMap_filter_month_length (ms : List MonthlyRow)
    (eM : List CleanEconRow) (m : ℤ) :
    ((ms.flatMap (fun a =>
        (eM.filter (fun r => decide (r.month = some a.month))).map (joinRow a))).filter
      (fun j => decide (j.month = m))).length =
    (ms.filter (fun a => decide (a.month = m))).length *
      (eM.filter (fun r => decide (r.month = some m))).length := by
  induction ms with
  | nil => simp
  | cons a rest ih =>
    rw [List.flatMap_cons, List.filter_append, List.length_append, ih]
    have hall : ∀ j ∈ (eM.filter (fun r => decide (r.month = some a.month))).map (joinRow a),
        j.month = a.month := by
      intro j hj
      rw [List.mem_map] at hj
      obtain ⟨er, _, hje⟩ := hj
      rw [← hje]
      rfl
    rw [filter_const_month m a.month _ hall, List.length_map, List.filter_cons]
    by_cases ham : a.month = m
    · rw [if_pos ham, if_pos (by simp [ham]), List.length_cons, ham]
      ring
    · rw [if_neg ham, if_neg (by simp [ham])]
      simp

/-- Claim C7: For a month `m` for which the economic table holds `k > 1`
rows and the aggregated COVID table holds `mc` `(country, month)` rows,
the inner join emits exactly `mc · k` rows for that month — Cartesian row
multiplication, nothing silently dropped. -/
theorem c7_cartesian (c : List CleanCovidRow) (e : List CleanEconRow)
    (m : ℤ) (k mc : ℕ)
    (hk : (e.filter (fun r => decide (r.date.ym = m))).length = k)
    (_hk1 : 1 < k)
    (hmc : ((monthlyCovid (c.map setCovidMonth)).filter
      (fun a => decide (a.month = m))).length = mc) :
    ((mergedWithMonth c e).filter (fun j => decide (j.month = m))).length
      = mc * k := by
  rw [mergedWithMonth, flatMap_filter_month_length, hmc]
  congr 1
  have hpred : ((fun r : CleanEconRow => decide (r.month = some m)) ∘ setEconMonth)
      = (fun r : CleanEconRow => decide (r.date.ym = m)) := by
    funext r
    simp [setEconMonth]
  rw [List.filter_map, List.length_map, hpred, hk]

/-- Witness for C7: one "US" aggregate for month 0 joined to an economic
table holding two rows for month 0 gives exactly `1 · 2 = 2` rows. -/
theorem c7_cartesian_witness :
    ((mergedWithMonth [cleanCovidFor "US" 0] [cleanEconFor 0, cleanEconFor 0]).filter
      (fun j => decide (j.month = 0))).length = 1 * 2 :=
  c7_cartesian [cleanCovidFor "US" 0] [cleanEconFor 0, cleanEconFor 0] 0 2 1
    (by decide) (by decide) (by decide)

/-- Counterexample to C10 as stated: `merge_datasets` assigns a `month`
column to the caller's economic table in place, so after the call the
input table no longer holds exactly the columns it held before (its
`month` stamp went from absent to `some 0`). -/
theorem c10_mutation_counterexample :
    (merge_datasets [] [dERow]).econAfter ≠ [dERow] ∧
    ((merge_datasets [] [dERow]).econAfter.getD 0 dERow).month = some 0 ∧
    dERow.month = none := by
  refine ⟨?_, rfl, rfl⟩
  decide

/-- Claim C10, amended: `merge_datasets` is not a stateless
transformation of its inputs: it stamps a `month` column onto *both*
caller tables in place.  The mutation is exactly that stamp: the
caller's tables keep their length and every other cell. -/
theorem c10_mutation_amended (c : List CleanCovidRow) (e : List CleanEconRow)
    (i : ℕ) :
    (merge_datasets c e).covidAfter.length = c.length ∧
    (merge_datasets c e).econAfter.length = e.length ∧
    (i < c.length →
      ((merge_datasets c e).covidAfter.getD i dCRow).month
          = some ((c.getD i dCRow).date.ym) ∧
      ((merge_datasets c e).covidAfter.getD i dCRow).date = (c.getD i dCRow).date ∧
      ((merge_datasets c e).covidAfter.getD i dCRow).country = (c.getD i dCRow).country ∧
      ((merge_datasets c e).covidAfter.getD i dCRow).cases = (c.getD i dCRow).cases ∧
      ((merge_datasets c e).covidAfter.getD i dCRow).deaths = (c.getD i dCRow).deaths ∧
      ((merge_datasets c e).covidAfter.getD i dCRow).recovered = (c.getD i dCRow).recovered ∧
      ((merge_datasets c e).covidAfter.getD i dCRow).new_cases = (c.getD i dCRow).new_cases ∧
      ((merge_datasets c e).covidAfter.getD i dCRow).new_deaths = (c.getD i dCRow).new_deaths ∧
      ((merge_datasets c e).covidAfter.getD i dCRow).cases_7day_avg = (c.getD i dCRow).cases_7day_avg ∧
      ((merge_datasets c e).covidAfter.getD i dCRow).deaths_7day_avg = (c.getD i dCRow).deaths_7day_avg ∧
      ((merge_datasets c e).covidAfter.getD i dCRow).case_fatality_rate = (c.getD i dCRow).case_fatality_rate) ∧
    (i < e.length →
      ((merge_datasets c e).econAfter.getD i dERow).month
          = some ((e.getD i dERow).date.ym) ∧
      ((merge_datasets c e).econAfter.getD i dERow).date = (e.getD i dERow).date ∧
      ((merge_datasets c e).econAfter.getD i dERow).gdp_growth = (e.getD i dERow).gdp_growth ∧
      ((merge_datasets c e).econAfter.getD i dERow).unemployment_rate = (e.getD i dERow).unemployment_rate ∧
      ((merge_datasets c e).econAfter.getD i dERow).inflation_rate = (e.getD i dERow).inflation_rate ∧
      ((merge_datasets c e).econAfter.getD i dERow).gdp_growth_change = (e.getD i dERow).gdp_growth_change ∧
      ((merge_datasets c e).econAfter.getD i dERow).unemployment_change = (e.getD i dERow).unemployment_change ∧
      ((merge_datasets c e).econAfter.getD i dERow).inflation_change = (e.getD i dERow).inflation_change) := by
  refine ⟨by simp [merge_datasets], by simp [merge_datasets], fun hi => ?_, fun hi => ?_⟩
  · have hrow : (merge_datasets c e).covidAfter.getD i dCRow
        = setCovidMonth (c.getD i dCRow) := by
      show (c.map setCovidMonth).getD i dCRow = _
      rw [List.getD_eq_getElem _ _ (by rw [List.length_map]; exact hi),
        List.getElem_map, List.getD_eq_getElem _ _ hi]
    rw [hrow]
    exact ⟨rfl, rfl, rfl, rfl, rfl, rfl, rfl, rfl, rfl, rfl, rfl⟩
  · have hrow : (merge_datasets c e).econAfter.getD i dERow
        = setEconMonth (e.getD i dERow) := by
      show (e.map setEconMonth).getD i dERow = _
      rw [List.getD_eq_getElem _ _ (by rw [List.length_map]; exact hi),
        List.getElem_map, List.getD_eq_getElem _ _ hi]
    rw [hrow]
    exact ⟨rfl, rfl, rfl, rfl, rfl, rfl, rfl, rfl⟩

/-- Witness for the amended C10: on a concrete one-row economic table the
post-call state carries the in-place `month` stamp of its own date. -/
theorem c10_mutation_amended_witness :
    ((merge_datasets [cleanCovidFor "US" 0] [cleanEconFor 5]).econAfter.getD 0 dERow).month
      = some (([cleanEconFor 5].getD 0 dERow).date.ym) :=
  ((c10_mutation_amended [cleanCovidFor "US" 0] [cleanEconFor 5] 0).2.2.2
    (by decide)).1

theorem map_sum_range (ps : List (ℚ × ℚ)) (f : ℚ × ℚ → ℚ) :
    (ps.map f).sum = ∑ j ∈ Finset.range ps.length, f (ps.getD j (0, 0)) := by
  rw [sum_eq_sum_range, List.length_map]
  apply Finset.sum_congr rfl
  intro j hj
  rw [Finset.mem_range] at hj
  rw [List.getD_eq_getElem _ _ (by rw [List.length_map]; exact hj),
    List.getElem_map, List.getD_eq_getElem _ _ hj]

theorem centered_sum_eq (n : ℕ) (f g : ℕ → ℚ) (hn : ((n : ℚ)) ≠ 0) :
    (n : ℚ) * ∑ j ∈ Finset.range n,
        (f j - (∑ i ∈ Finset.range n, f i) / n) *
        (g j - (∑ i ∈ Finset.range n, g i) / n)
      = (n : ℚ) * (∑ j ∈ Finset.range n, f j * g j)
        - (∑ j ∈ Finset.range n, f j) * (∑ j ∈ Finset.range n, g j) := by
  have hpt : ∀ j ∈ Finset.range n,
      (f j - (∑ i ∈ Finset.range n, f i) / n) *
        (g j - (∑ i ∈ Finset.range n, g i) / n)
      = f j * g j - ((∑ i ∈ Finset.range n, g i) / n) * f j
        - ((∑ i ∈ Finset.range n, f i) / n) * g j
        + ((∑ i ∈ Finset.range n, f i) / n) * ((∑ i ∈ Finset.range n, g i) / n) :=
    fun j _ => by ring
  rw [Finset.sum_congr rfl hpt, Finset.sum_add_distrib, Finset.sum_sub_distrib,
    Finset.sum_sub_distrib, ← Finset.mul_sum, ← Finset.mul_sum, Finset.sum_const,
    Finset.card_range, nsmul_eq_mul]
  field_simp
  ring

theorem scaled_cauchy_schwarz (n : ℕ) (X Y : ℕ → ℚ) (hn : ((n : ℚ)) ≠ 0) :
    ((n : ℚ) * ∑ j ∈ Finset.range n, X j * Y j
      - (∑ j ∈ Finset.range n, X j) * (∑ j ∈ Finset.range n, Y j)) ^ 2 ≤
    ((n : ℚ) * ∑ j ∈ Finset.range n, X j * X j
      - (∑ j ∈ Finset.range n, X j) * (∑ j ∈ Finset.range n, X j)) *
    ((n : ℚ) * ∑ j ∈ Finset.range n, Y j * Y j
      - (∑ j ∈ Finset.range n, Y j) * (∑ j ∈ Finset.range n, Y j)) := by
  have hcs := Finset.sum_mul_sq_le_sq_mul_sq (Finset.range n)
    (fun j => X j - (∑ i ∈ Finset.range n, X i) / n)
    (fun j => Y j - (∑ i ∈ Finset.range n, Y i) / n)
  have hsq : ∀ h : ℕ → ℚ,
      ∑ j ∈ Finset.range n, (h j - (∑ i ∈ Finset.range n, h i) / n) ^ 2
        = ∑ j ∈ Finset.range n,
            (h j - (∑ i ∈ Finset.range n, h i) / n) *
            (h j - (∑ i ∈ Finset.range n, h i) / n) := by
    intro h
    apply Finset.sum_congr rfl
    intro j _
    ring
  rw [hsq X, hsq Y] at hcs
  calc ((n : ℚ) * ∑ j ∈ Finset.range n, X j * Y j
        - (∑ j ∈ Finset.range n, X j) * (∑ j ∈ Finset.range n, Y j)) ^ 2
      = ((n : ℚ) * ∑ j ∈ Finset.range n,
          (X j - (∑ i ∈ Finset.range n, X i) / n) *
          (Y j - (∑ i ∈ Finset.range n, Y i) / n)) ^ 2 := by
        rw [centered_sum_eq n X Y hn]
    _ = (n : ℚ) ^ 2 * (∑ j ∈ Finset.range n,
          (X j - (∑ i ∈ Finset.range n, X i) / n) *
          (Y j - (∑ i ∈ Finset.range n, Y i) / n)) ^ 2 := by ring
    _ ≤ (n : ℚ) ^ 2 * ((∑ j ∈ Finset.range n,
          (X j - (∑ i ∈ Finset.range n, X i) / n) *
          (X j - (∑ i ∈ Finset.range n, X i) / n)) *
        (∑ j ∈ Finset.range n,
          (Y j - (∑ i ∈ Finset.range n, Y i) / n) *
          (Y j - (∑ i ∈ Finset.range n, Y i) / n))) :=
        mul_le_mul_of_nonneg_left hcs (sq_nonneg _)
    _ = ((n : ℚ) * ∑ j ∈ Finset.range n,
          (X j - (∑ i ∈ Finset.range n, X i) / n) *
          (X j - (∑ i ∈ Finset.range n, X i) / n)) *
        ((n : ℚ) * ∑ j ∈ Finset.range n,
          (Y j - (∑ i ∈ Finset.range n, Y i) / n) *
          (Y j - (∑ i ∈ Finset.range n, Y i) / n)) := by ring
    _ = _ := by rw [centered_sum_eq n X X hn, centered_sum_eq n Y Y hn]

theorem covN_sq_le (ps : List (ℚ × ℚ)) : covN ps ^ 2 ≤ varNX ps * varNY ps := by
  rcases Nat.eq_zero_or_pos ps.length with h0 | hpos
  · have he : ps = [] := List.length_eq_zero.mp h0
    subst he
    simp [covN, varNX, varNY]
  · have hnq : ((ps.length : ℚ)) ≠ 0 := by
      simp only [ne_eq, Nat.cast_eq_zero]
      omega
    simp only [covN, varNX, varNY, map_sum_range]
    exact scaled_cauchy_schwarz ps.length
      (fun j => (ps.getD j (0, 0)).1) (fun j => (ps.getD j (0, 0)).2) hnq

theorem varNX_nonneg (ps : List (ℚ × ℚ)) : 0 ≤ varNX ps := by
  have hcs := Finset.sum_mul_sq_le_sq_mul_sq (Finset.range ps.length)
    (fun j => (ps.getD j (0, 0)).1) (fun _ => (1 : ℚ))
  simp only [mul_one, one_pow, Finset.sum_const, Finset.card_range,
    nsmul_eq_mul] at hcs
  have hconv : ∑ j ∈ Finset.range ps.length, (ps.getD j (0, 0)).1 ^ 2
      = ∑ j ∈ Finset.range ps.length, (ps.getD j (0, 0)).1 * (ps.getD j (0, 0)).1 := by
    apply Finset.sum_congr rfl
    intro j _
    ring
  rw [hconv] at hcs
  rw [varNX, map_sum_range, map_sum_range]
  nlinarith [hcs]

theorem varNY_nonneg (ps : List (ℚ × ℚ)) : 0 ≤ varNY ps := by
  have hcs := Finset.sum_mul_sq_le_sq_mul_sq (Finset.range ps.length)
    (fun j => (ps.getD j (0, 0)).2) (fun _ => (1 : ℚ))
  simp only [mul_one, one_pow, Finset.sum_const, Finset.card_range,
    nsmul_eq_mul] at hcs
  have hconv : ∑ j ∈ Finset.range ps.length, (ps.getD j (0, 0)).2 ^ 2
      = ∑ j ∈ Finset.range ps.length, (ps.getD j (0, 0)).2 * (ps.getD j (0, 0)).2 := by
    apply Finset.sum_congr rfl
    intro j _
    ring
  rw [hconv] at hcs
  rw [varNY, map_sum_range, map_sum_range]
  nlinarith [hcs]

theorem corrOpt_bound (ps : List (ℚ × ℚ)) (r : ℝ) (hr : corrOpt ps = some r) :
    -1 ≤ r ∧ r ≤ 1 := by
  rw [corrOpt] at hr
  by_cases hd : 2 ≤ ps.length ∧ varNX ps ≠ 0 ∧ varNY ps ≠ 0
  · rw [if_pos hd] at hr
    obtain ⟨hn2, hvx0, hvy0⟩ := hd
    have hre : r = ((covN ps : ℚ) : ℝ)
        / (Real.sqrt ((varNX ps : ℚ) : ℝ) * Real.sqrt ((varNY ps : ℚ) : ℝ)) :=
      (Option.some.inj hr).symm
    have hvx : (0 : ℝ) < ((varNX ps : ℚ) : ℝ) := by
      exact_mod_cast lt_of_le_of_ne (varNX_nonneg ps) (Ne.symm hvx0)
    have hvy : (0 : ℝ) < ((varNY ps : ℚ) : ℝ) := by
      exact_mod_cast lt_of_le_of_ne (varNY_nonneg ps) (Ne.symm hvy0)
    have hD : 0 < Real.sqrt ((varNX ps : ℚ) : ℝ) * Real.sqrt ((varNY ps : ℚ) : ℝ) :=
      mul_pos (Real.sqrt_pos.mpr hvx) (Real.sqrt_pos.mpr hvy)
    have hcs : (((covN ps : ℚ) : ℝ)) ^ 2
        ≤ ((varNX ps : ℚ) : ℝ) * ((varNY ps : ℚ) : ℝ) := by
      exact_mod_cast covN_sq_le ps
    have habs : |((covN ps : ℚ) : ℝ)|
        ≤ Real.sqrt ((varNX ps : ℚ) : ℝ) * Real.sqrt ((varNY ps : ℚ) : ℝ) := by
      rw [← Real.sqrt_mul (le_of_lt hvx), ← Real.sqrt_sq_eq_abs]
      exact Real.sqrt_le_sqrt hcs
    have hrabs : |r| ≤ 1 := by
      rw [hre, abs_div, abs_of_pos hD]
      exact (div_le_one hD).mpr habs
    exact abs_le.mp hrabs
  · rw [if_neg hd] at hr
    cases hr

theorem sum_of_const (l : List ℚ) (cst : ℚ) (h : ∀ x ∈ l, x = cst) :
    l.sum = l.length * cst := by
  induction l with
  | nil => simp
  | cons x xs ih =>
    have hx : x = cst := h x (List.mem_cons_self _ _)
    have hxs : ∀ y ∈ xs, y = cst := fun y hy => h y (List.mem_cons_of_mem _ hy)
    rw [List.sum_cons, ih hxs, List.length_cons, hx]
    push_cast
    ring

theorem constCol_varNX (ps : List (ℚ × ℚ))
    (h : constCol (ps.map (fun p => p.1))) : varNX ps = 0 := by
  rcases ps with _ | ⟨p, rest⟩
  · simp [varNX]
  · have hmem1 : p.1 ∈ (p :: rest).map (fun q => q.1) :=
      List.mem_map_of_mem _ (List.mem_cons_self _ _)
    have hall : ∀ x ∈ (p :: rest).map (fun q => q.1), x = p.1 :=
      fun x hx => h x hx p.1 hmem1
    have hall2 : ∀ x ∈ (p :: rest).map (fun q => q.1 * q.1), x = p.1 * p.1 := by
      intro x hx
      rw [List.mem_map] at hx
      obtain ⟨q, hq, hqx⟩ := hx
      have hq1 : q.1 = p.1 := hall q.1 (List.mem_map_of_mem _ hq)
      rw [← hqx, hq1]
    rw [varNX, sum_of_const _ _ hall, sum_of_const _ _ hall2,
      List.length_map, List.length_map]
    ring

theorem constCol_varNY (ps : List (ℚ × ℚ))
    (h : constCol (ps.map (fun p => p.2))) : varNY ps = 0 := by
  rcases ps with _ | ⟨p, rest⟩
  · simp [varNY]
  · have hmem1 : p.2 ∈ (p :: rest).map (fun q => q.2) :=
      List.mem_map_of_mem _ (List.mem_cons_self _ _)
    have hall : ∀ x ∈ (p :: rest).map (fun q => q.2), x = p.2 :=
      fun x hx => h x hx p.2 hmem1
    have hall2 : ∀ x ∈ (p :: rest).map (fun q => q.2 * q.2), x = p.2 * p.2 := by
      intro x hx
      rw [List.mem_map] at hx
      obtain ⟨q, hq, hqx⟩ := hx
      have hq2 : q.2 = p.2 := hall q.2 (List.mem_map_of_mem _ hq)
      rw [← hqx, hq2]
    rw [varNY, sum_of_const _ _ hall, sum_of_const _ _ hall2,
      List.length_map, List.length_map]
    ring

theorem corrOpt_undefined (ps : List (ℚ × ℚ))
    (h : ps.length < 2 ∨ constCol (ps.map (fun p => p.1)) ∨
      constCol (ps.map (fun p => p.2))) :
    corrOpt ps = none := by
  rw [corrOpt]
  rcases h with h | h | h
  · exact if_neg (fun hc => absurd hc.1 (by omega))
  · exact if_neg (fun hc => hc.2.1 (constCol_varNX ps h))
  · exact if_neg (fun hc => hc.2.2 (constCol_varNY ps h))

/-- Claim C6: Every defined coefficient in the map produced by
`_calculate_correlations` lies in `[-1, 1]`; and whenever a pair of
columns has fewer than 2 valid paired observations or either column is
constant (zero variance), the coefficient is the null marker `none` —
never a fabricated number, and never an error (the summarizer is a total
function). -/
theorem c6_correlation_bounds (df : List MergedRow) :
    (∀ ent ∈ calculate_correlations df, ∀ r : ℝ, ent.2 = some r →
      -1 ≤ r ∧ r ≤ 1) ∧
    (∀ ps : List (ℚ × ℚ),
      ps.length < 2 ∨ constCol (ps.map (fun p => p.1)) ∨
        constCol (ps.map (fun p => p.2)) →
      corrOpt ps = none) := by
  constructor
  · intro ent hent r hr
    simp only [calculate_correlations, List.mem_cons, List.not_mem_nil,
      or_false] at hent
    rcases hent with h | h | h | h | h | h <;>
      (rw [h] at hr; exact corrOpt_bound _ r hr)
  · exact corrOpt_undefined

/-- Witness for C6: on the two-row merged table where `gdp_growth` copies
`new_cases`, the `cases_gdp` coefficient is defined and equals 1, which
the theorem brackets into `[-1, 1]`; and the empty pair list yields the
null marker. -/
theorem c6_correlation_bounds_witness :
    ((-1 : ℝ) ≤ 1 ∧ (1 : ℝ) ≤ 1) ∧ corrOpt ([] : List (ℚ × ℚ)) = none := by
  have hps : pairsOf corrSample (fun r => r.new_cases) (fun r => r.gdp_growth)
      = [((0 : ℚ), (0 : ℚ)), ((1 : ℚ), (1 : ℚ))] := rfl
  have hsome : corrOpt (pairsOf corrSample (fun r => r.new_cases)
      (fun r => r.gdp_growth)) = some 1 := by
    rw [hps, corrOpt, if_pos ?cond]
    case cond =>
      refine ⟨by norm_num, by norm_num [varNX], by norm_num [varNY]⟩
    have hc : covN [((0 : ℚ), (0 : ℚ)), ((1 : ℚ), (1 : ℚ))] = 1 := by
      norm_num [covN]
    have hx : varNX [((0 : ℚ), (0 : ℚ)), ((1 : ℚ), (1 : ℚ))] = 1 := by
      norm_num [varNX]
    have hy : varNY [((0 : ℚ), (0 : ℚ)), ((1 : ℚ), (1 : ℚ))] = 1 := by
      norm_num [varNY]
    rw [hc, hx, hy]
    norm_num
  constructor
  · exact (c6_correlation_bounds corrSample).1
      ("cases_gdp", corrOpt (pairsOf corrSample (fun r => r.new_cases)
        (fun r => r.gdp_growth)))
      (by simp [calculate_correlations]) 1 hsome
  · exact (c6_correlation_bounds []).2 [] (Or.inl (by decide))
